import Mathlib

/-!
Verification of the HailoRT core-op activation engine and broker client proxy.

Shallow embedding of `src/hailort/libhailort/src/core_op/core_op.cpp` and
`src/hailort/libhailort/src/service/network_group_client.cpp`.
Virtual methods (`is_scheduled`, `activate_impl`, `deactivate_impl`,
`activate_stream`, `deactivate_stream`, remote-call replies) are passed in as
parameters; machine integers are modelled as `Nat` with explicit bounds where
the width matters.
-/

namespace Hailort

/-- Status codes from the hailo_status taxonomy used by the embedded code.
`other n` stands for any further status code produced by subclass code. -/
inductive HailoStatus where
  | SUCCESS
  | UNINITIALIZED
  | INVALID_OPERATION
  | INTERNAL_FAILURE
  | NOT_AVAILABLE
  | NOT_FOUND
  | NOT_IMPLEMENTED
  | STREAM_ABORTED_BY_USER
  | OUT_OF_HOST_MEMORY
  | INVALID_ARGUMENT
  | other (code : Nat)
  deriving DecidableEq, Repr

/-- Largest value of a `uint16_t`, the initial accumulator of the batch-size
minimum loop in `CoreOp::get_smallest_configured_batch_size`. -/
def UINT16_MAX : Nat := 65535

/-- Modelled from the spec: `HAILO_DEFAULT_BATCH_SIZE`, the "automatic"
sentinel batch size (defined in the public header `hailort.h`, which is not
under `src/`); the code comment calls it "not a real batch-value", and the
public API defines it as 0. -/
def HAILO_DEFAULT_BATCH_SIZE : Nat := 0

/-- Modelled from the spec: `DEFAULT_ACTUAL_BATCH_SIZE`, the fixed default
batch size used when every network is at the automatic sentinel (defined in
`hef_internal.hpp`, which is not under `src/`). -/
def DEFAULT_ACTUAL_BATCH_SIZE : Nat := 1

/-- Per-network configuration parameters (`hailo_network_parameters_t`):
only the `batch_size` field is read by the embedded code. -/
structure NetworkParams where
  batch_size : Nat
  deriving DecidableEq, Repr

/-- `ConfigureNetworkParams`: the per-network parameter map keyed by network
name (iteration order of the source map is the list order). -/
structure ConfigureNetworkParams where
  network_params_by_name : List (String × NetworkParams)
  deriving DecidableEq, Repr

namespace CoreOp

/-- Embedding of `CoreOp::get_smallest_configured_batch_size`: a running
minimum over all per-network batch sizes, skipping the automatic sentinel,
starting from `UINT16_MAX`; if the accumulator is still `UINT16_MAX` at the
end, the fixed default is returned. -/
def get_smallest_configured_batch_size (config_params : ConfigureNetworkParams) : Nat :=
  let min_batch_size := config_params.network_params_by_name.foldl
    (fun m p =>
      if HAILO_DEFAULT_BATCH_SIZE ≠ p.2.batch_size ∧ p.2.batch_size < m then p.2.batch_size else m)
    UINT16_MAX
  if UINT16_MAX = min_batch_size then DEFAULT_ACTUAL_BATCH_SIZE else min_batch_size

end CoreOp

/-- The batch sizes the claim calls "explicitly configured": every configured
batch size that differs from the automatic sentinel, in map order. -/
def explicitBatchSizes (config_params : ConfigureNetworkParams) : List Nat :=
  (config_params.network_params_by_name.map (fun p => p.2.batch_size)).filter
    (fun b => b ≠ HAILO_DEFAULT_BATCH_SIZE)

theorem batch_fold_eq_foldl_min (l : List (String × NetworkParams)) (m0 : Nat) :
    l.foldl
      (fun m p =>
        if HAILO_DEFAULT_BATCH_SIZE ≠ p.2.batch_size ∧ p.2.batch_size < m then p.2.batch_size else m)
      m0
    = ((l.map (fun p => p.2.batch_size)).filter (fun b => b ≠ HAILO_DEFAULT_BATCH_SIZE)).foldl min m0 := by
  induction l generalizing m0 with
  | nil => rfl
  | cons hd tl ih =>
    by_cases hdef : hd.2.batch_size = HAILO_DEFAULT_BATCH_SIZE
    · have hskip : (if HAILO_DEFAULT_BATCH_SIZE ≠ hd.2.batch_size ∧ hd.2.batch_size < m0
          then hd.2.batch_size else m0) = m0 := by
        rw [if_neg]
        intro h
        exact h.1 hdef.symm
      simp [List.filter_cons, hdef, hskip, ih]
    · have hstep : (if HAILO_DEFAULT_BATCH_SIZE ≠ hd.2.batch_size ∧ hd.2.batch_size < m0
          then hd.2.batch_size else m0) = min m0 hd.2.batch_size := by
        by_cases hlt : hd.2.batch_size < m0
        · rw [if_pos ⟨fun h => hdef h.symm, hlt⟩]
          omega
        · rw [if_neg (fun h => hlt h.2)]
          omega
      simp [List.filter_cons, hdef, hstep, ih]

theorem foldl_min_le_init (l : List Nat) (m0 : Nat) : l.foldl min m0 ≤ m0 := by
  induction l generalizing m0 with
  | nil => exact Nat.le_refl m0
  | cons hd tl ih =>
    exact Nat.le_trans (ih (min m0 hd)) (Nat.min_le_left m0 hd)

theorem foldl_min_le_mem (l : List Nat) : ∀ m0 b, b ∈ l → l.foldl min m0 ≤ b := by
  induction l with
  | nil =>
    intro m0 b hb
    cases hb
  | cons hd tl ih =>
    intro m0 b hb
    rcases List.mem_cons.mp hb with h | h
    · subst h
      exact Nat.le_trans (foldl_min_le_init tl (min m0 b)) (Nat.min_le_right m0 b)
    · exact ih (min m0 hd) b h

theorem foldl_min_mem_or_init (l : List Nat) (m0 : Nat) :
    l.foldl min m0 = m0 ∨ l.foldl min m0 ∈ l := by
  induction l generalizing m0 with
  | nil => exact Or.inl rfl
  | cons hd tl ih =>
    rcases ih (min m0 hd) with h | h
    · rcases Nat.le_total m0 hd with hle | hle
      · left
        rw [List.foldl_cons, h]
        omega
      · right
        have hmin : min m0 hd = hd := by omega
        rw [List.foldl_cons, h, hmin]
        exact List.mem_cons_self hd tl
    · right
      exact List.mem_cons_of_mem hd h

/-- Configuration with one network explicitly configured at batch size 65535
(= UINT16_MAX): this value differs from the automatic sentinel yet equals the
minimum-loop's initial accumulator. -/
def cfg_uint16_max : ConfigureNetworkParams := ⟨[("A", ⟨65535⟩)]⟩

/-- C3 counterexample: for the configuration whose only network is explicitly
configured at batch size 65535, the minimum of the explicitly configured batch
sizes is 65535, yet `get_smallest_configured_batch_size` returns
`DEFAULT_ACTUAL_BATCH_SIZE`, so the function does not return that minimum. -/
theorem batch_size_uint16_max_counterexample :
    explicitBatchSizes cfg_uint16_max = [65535] ∧
    CoreOp.get_smallest_configured_batch_size cfg_uint16_max = DEFAULT_ACTUAL_BATCH_SIZE ∧
    DEFAULT_ACTUAL_BATCH_SIZE ≠ 65535 := by decide

/-- C3 (amended): `get_smallest_configured_batch_size` returns the minimum of
the explicitly configured (non-sentinel) batch sizes whenever some explicit
batch size is below UINT16_MAX; if there is no explicitly configured network,
or every explicit batch size equals UINT16_MAX (the accumulator's start
value), it returns the fixed default `DEFAULT_ACTUAL_BATCH_SIZE`. -/
theorem batch_size_resolution_amended (cfg : ConfigureNetworkParams) :
    (CoreOp.get_smallest_configured_batch_size cfg =
      if UINT16_MAX = (explicitBatchSizes cfg).foldl min UINT16_MAX then DEFAULT_ACTUAL_BATCH_SIZE
      else (explicitBatchSizes cfg).foldl min UINT16_MAX) ∧
    ((∃ b ∈ explicitBatchSizes cfg, b < UINT16_MAX) →
      (CoreOp.get_smallest_configured_batch_size cfg ∈ explicitBatchSizes cfg ∧
       ∀ b ∈ explicitBatchSizes cfg, CoreOp.get_smallest_configured_batch_size cfg ≤ b)) ∧
    (explicitBatchSizes cfg = [] →
      CoreOp.get_smallest_configured_batch_size cfg = DEFAULT_ACTUAL_BATCH_SIZE) := by
  have hfold : CoreOp.get_smallest_configured_batch_size cfg =
      if UINT16_MAX = (explicitBatchSizes cfg).foldl min UINT16_MAX then DEFAULT_ACTUAL_BATCH_SIZE
      else (explicitBatchSizes cfg).foldl min UINT16_MAX := by
    unfold CoreOp.get_smallest_configured_batch_size explicitBatchSizes
    rw [batch_fold_eq_foldl_min]
  refine ⟨hfold, ?_, ?_⟩
  · rintro ⟨b, hb, hblt⟩
    have hle := foldl_min_le_mem (explicitBatchSizes cfg) UINT16_MAX b hb
    have hne : ¬ (UINT16_MAX = (explicitBatchSizes cfg).foldl min UINT16_MAX) := by omega
    rw [hfold, if_neg hne]
    constructor
    · rcases foldl_min_mem_or_init (explicitBatchSizes cfg) UINT16_MAX with h | h
      · exact absurd h.symm hne
      · exact h
    · intro c hc
      exact foldl_min_le_mem _ UINT16_MAX c hc
  · intro hemp
    rw [hfold, hemp]
    simp

/-- Mixed configuration from the spec's example: network A explicitly at 4,
network B at the automatic sentinel, network C explicitly at 2. -/
def cfg_mixed : ConfigureNetworkParams :=
  ⟨[("A", ⟨4⟩), ("B", ⟨HAILO_DEFAULT_BATCH_SIZE⟩), ("C", ⟨2⟩)]⟩

/-- Witness for the C3 amended theorem at the spec's example input
`A:4, B:AUTO, C:2`, whose resolution is 2. -/
theorem batch_size_resolution_amended_witness :
    (CoreOp.get_smallest_configured_batch_size cfg_mixed ∈ explicitBatchSizes cfg_mixed ∧
     ∀ b ∈ explicitBatchSizes cfg_mixed, CoreOp.get_smallest_configured_batch_size cfg_mixed ≤ b) ∧
    CoreOp.get_smallest_configured_batch_size cfg_mixed = 2 :=
  ⟨(batch_size_resolution_amended cfg_mixed).2.1 (by decide), by decide⟩

/-- Observable steps of `CoreOp::activate`, in program order: claiming the
Activated slot, the hardware activation call (`activate_impl`), signalling the
activation event, best-effort hardware deactivation (`deactivate_impl`), and
clearing the slot. -/
inductive ActivateEvent where
  | claimSlot
  | hwActivate
  | signalEvent
  | hwDeactivate
  | clearSlot
  deriving DecidableEq, Repr

/-- Result of one `CoreOp::activate` call: the returned status, the Activated
slot holder afterwards (core-ops are identified by `Nat`), and the trace of
observable steps performed. -/
structure ActivateOutcome where
  status : HailoStatus
  holder : Option Nat
  trace : List ActivateEvent
  deriving DecidableEq, Repr

namespace CoreOp

/-- Embedding of `CoreOp::activate(dynamic_batch_size)`. `self` is the calling
core-op's identity, `isScheduled` the result of the virtual `is_scheduled()`,
`holder` the current `ActiveCoreOpHolder` content, `implStatus` the result of
the virtual `activate_impl`, and `signalStatus` the result of signalling the
activation event. The aborted-by-user early return and the `CHECK_SUCCESS`
that follows it both return `implStatus` unchanged, so the two exits collapse
to one branch here. -/
def activate (self : Nat) (isScheduled : Bool) (holder : Option Nat)
    (implStatus signalStatus : HailoStatus) : ActivateOutcome :=
  if isScheduled then
    { status := .INVALID_OPERATION, holder := holder, trace := [] }
  else if holder.isSome then
    { status := .INVALID_OPERATION, holder := holder, trace := [] }
  else if implStatus ≠ .SUCCESS then
    { status := implStatus, holder := none,
      trace := [.claimSlot, .hwActivate, .hwDeactivate, .clearSlot] }
  else if signalStatus ≠ .SUCCESS then
    { status := signalStatus, holder := none,
      trace := [.claimSlot, .hwActivate, .signalEvent, .hwDeactivate, .clearSlot] }
  else
    { status := .SUCCESS, holder := some self,
      trace := [.claimSlot, .hwActivate, .signalEvent] }

end CoreOp

/-- C1: manual activation mutual exclusion. If the scheduler is active or any
core-op already occupies the Activated slot, `activate` returns
INVALID_OPERATION and leaves the holder unchanged; whenever hardware
activation is reached, the slot was claimed first; a successful call leaves
exactly the caller in the slot; and after a successful call, a second
`activate` call (by any core-op, with any hardware outcomes) returns
INVALID_OPERATION. -/
theorem activate_manual_mutual_exclusion
    (self self2 : Nat) (sched sched2 : Bool) (holder : Option Nat)
    (impl sig impl2 sig2 : HailoStatus) :
    ((sched = true ∨ holder.isSome) →
      (CoreOp.activate self sched holder impl sig).status = .INVALID_OPERATION ∧
      (CoreOp.activate self sched holder impl sig).holder = holder) ∧
    (.hwActivate ∈ (CoreOp.activate self sched holder impl sig).trace →
      (CoreOp.activate self sched holder impl sig).trace.head? = some .claimSlot) ∧
    ((CoreOp.activate self sched holder impl sig).status = .SUCCESS →
      (CoreOp.activate self sched holder impl sig).holder = some self) ∧
    ((CoreOp.activate self sched holder impl sig).status = .SUCCESS →
      (CoreOp.activate self2 sched2 (CoreOp.activate self sched holder impl sig).holder
        impl2 sig2).status = .INVALID_OPERATION) := by
  cases sched with
  | true =>
    refine ⟨fun _ => ⟨rfl, rfl⟩, ?_, ?_, ?_⟩ <;> simp [CoreOp.activate]
  | false =>
    cases holder with
    | some h =>
      refine ⟨fun _ => ⟨rfl, rfl⟩, ?_, ?_, ?_⟩ <;> simp [CoreOp.activate]
    | none =>
      by_cases hi : impl = .SUCCESS <;> by_cases hs : sig = .SUCCESS <;>
        cases sched2 <;>
        simp [CoreOp.activate, hi, hs]

/-- Witness for C1: a concrete successful first activation by core-op 1
followed by an attempted activation by core-op 2, which is refused with
INVALID_OPERATION. -/
theorem activate_manual_mutual_exclusion_witness :
    (CoreOp.activate 2 false
      (CoreOp.activate 1 false none .SUCCESS .SUCCESS).holder .SUCCESS .SUCCESS).status
      = .INVALID_OPERATION :=
  (activate_manual_mutual_exclusion 1 2 false false none
    .SUCCESS .SUCCESS .SUCCESS .SUCCESS).2.2.2 (by decide)

namespace CoreOp

/-- One loop of `CoreOp::activate_low_level_streams` over a stream map: each
entry pairs a stream name with the status its `activate_stream()` returns.
An aborted-by-user status returns immediately (after an info log); any other
non-success status returns immediately through `CHECK_SUCCESS`. -/
def activate_streams_loop : List (String × HailoStatus) → HailoStatus
  | [] => .SUCCESS
  | (_, s) :: rest =>
    if s = .STREAM_ABORTED_BY_USER then s
    else if s ≠ .SUCCESS then s
    else activate_streams_loop rest

/-- Embedding of `CoreOp::activate_low_level_streams`: the input-stream loop
runs first; only if it completes with SUCCESS does the output-stream loop
run. -/
def activate_low_level_streams
    (inputs outputs : List (String × HailoStatus)) : HailoStatus :=
  match activate_streams_loop inputs with
  | .SUCCESS => activate_streams_loop outputs
  | s => s

/-- Observable result of `CoreOp::deactivate_low_level_streams`: the returned
status and the names of the streams whose teardown was attempted, in order. -/
structure TeardownOutcome where
  status : HailoStatus
  attempted : List String
  deriving DecidableEq, Repr

/-- Embedding of `CoreOp::deactivate_low_level_streams`: best effort - the
loop never exits early; each entry pairs a stream name with the status its
`deactivate_stream()` returns, and each non-success status overwrites the
status accumulator (which starts at SUCCESS). -/
def deactivate_low_level_streams
    (inputs outputs : List (String × HailoStatus)) : TeardownOutcome :=
  let step : HailoStatus → (String × HailoStatus) → HailoStatus := fun st p =>
    if p.2 ≠ .SUCCESS then p.2 else st
  { status := outputs.foldl step (inputs.foldl step .SUCCESS),
    attempted := inputs.map Prod.fst ++ outputs.map Prod.fst }

end CoreOp

/-- The non-success statuses of a stream list, in attempt order. -/
def failureStatuses (streams : List (String × HailoStatus)) : List HailoStatus :=
  (streams.map Prod.snd).filter (fun s => s ≠ .SUCCESS)

/-- The last element of a status list, or the default when it is empty. -/
def lastD : List HailoStatus → HailoStatus → HailoStatus
  | [], d => d
  | s :: rest, _ => lastD rest s

theorem lastD_append_cons (l1 : List HailoStatus) (a : HailoStatus)
    (l2 : List HailoStatus) (d : HailoStatus) :
    lastD (l1 ++ a :: l2) d = lastD (a :: l2) d := by
  induction l1 generalizing d with
  | nil => rfl
  | cons b t ih =>
    show lastD (t ++ a :: l2) b = _
    rw [ih b]
    cases l2 <;> rfl

theorem teardown_foldl_eq_lastD (l : List (String × HailoStatus)) (st : HailoStatus) :
    l.foldl (fun st p => if p.2 ≠ .SUCCESS then p.2 else st) st
      = lastD (failureStatuses l) st := by
  induction l generalizing st with
  | nil => rfl
  | cons hd tl ih =>
    by_cases h : hd.2 = .SUCCESS
    · rw [List.foldl_cons, if_neg (by simp [h]), ih]
      simp [failureStatuses, List.filter_cons, h]
    · rw [List.foldl_cons, if_pos (by simp [h]), ih]
      simp only [failureStatuses, List.map_cons, List.filter_cons]
      rw [if_pos (by simp [h])]
      rfl

/-- C2 counterexample: with two input streams whose teardowns fail with
INTERNAL_FAILURE then NOT_FOUND, the first non-success status encountered is
INTERNAL_FAILURE, but `deactivate_low_level_streams` returns NOT_FOUND. -/
theorem deactivate_streams_first_failure_counterexample :
    (CoreOp.deactivate_low_level_streams
      [("in0", .INTERNAL_FAILURE), ("in1", .NOT_FOUND)] []).status = .NOT_FOUND ∧
    (failureStatuses [("in0", .INTERNAL_FAILURE), ("in1", .NOT_FOUND)]).head? =
      some .INTERNAL_FAILURE ∧
    HailoStatus.NOT_FOUND ≠ .INTERNAL_FAILURE := by decide

/-- C2 (amended): `deactivate_low_level_streams` attempts the teardown of
every input and output stream even when some teardown fails, and the status
returned after all streams were attempted is the LAST non-success status
encountered (HAILO_SUCCESS when every stream succeeds). -/
theorem deactivate_streams_best_effort_last_failure
    (inputs outputs : List (String × HailoStatus)) :
    (CoreOp.deactivate_low_level_streams inputs outputs).attempted =
      inputs.map Prod.fst ++ outputs.map Prod.fst ∧
    (CoreOp.deactivate_low_level_streams inputs outputs).status =
      lastD (failureStatuses (inputs ++ outputs)) .SUCCESS := by
  refine ⟨rfl, ?_⟩
  have hstat : (CoreOp.deactivate_low_level_streams inputs outputs).status =
      outputs.foldl (fun st p => if p.2 ≠ .SUCCESS then p.2 else st)
        (inputs.foldl (fun st p => if p.2 ≠ .SUCCESS then p.2 else st) .SUCCESS) := rfl
  rw [hstat, teardown_foldl_eq_lastD, teardown_foldl_eq_lastD]
  have hsplit : failureStatuses (inputs ++ outputs) =
      failureStatuses inputs ++ failureStatuses outputs := by
    simp [failureStatuses]
  rw [hsplit]
  cases hfo : failureStatuses outputs with
  | nil =>
    rw [List.append_nil]
    rfl
  | cons a l =>
    rw [lastD_append_cons]
    rfl

theorem activate_streams_loop_aborted (pre : List (String × HailoStatus)) (nm : String)
    (rest : List (String × HailoStatus)) (hpre : ∀ p ∈ pre, p.2 = .SUCCESS) :
    CoreOp.activate_streams_loop (pre ++ (nm, .STREAM_ABORTED_BY_USER) :: rest) =
      .STREAM_ABORTED_BY_USER := by
  induction pre with
  | nil => rfl
  | cons hd tl ih =>
    have h := hpre hd (List.mem_cons_self hd tl)
    have htl : ∀ p ∈ tl, p.2 = .SUCCESS := fun p hp => hpre p (List.mem_cons_of_mem hd hp)
    simp [CoreOp.activate_streams_loop, h, ih htl]

/-- C4: aborted-by-user pass-through during activation. When hardware
activation (`activate_impl`) returns STREAM_ABORTED_BY_USER, `activate`
releases the Activated slot, performs best-effort deactivation, and returns
STREAM_ABORTED_BY_USER itself; more generally every non-success hardware
status is returned unchanged (never escalated to another code) with the same
cleanup. In `activate_low_level_streams`, a stream whose activation is
aborted by the user (all earlier streams succeeding) makes the whole call
return STREAM_ABORTED_BY_USER. -/
theorem aborted_by_user_passthrough
    (self : Nat) (sig : HailoStatus)
    (pre rest outs : List (String × HailoStatus)) (nm : String) :
    ((CoreOp.activate self false none .STREAM_ABORTED_BY_USER sig).status =
        .STREAM_ABORTED_BY_USER ∧
     (CoreOp.activate self false none .STREAM_ABORTED_BY_USER sig).holder = none ∧
     .hwDeactivate ∈ (CoreOp.activate self false none .STREAM_ABORTED_BY_USER sig).trace) ∧
    (∀ s : HailoStatus, s ≠ .SUCCESS →
      (CoreOp.activate self false none s sig).status = s ∧
      (CoreOp.activate self false none s sig).holder = none ∧
      .hwDeactivate ∈ (CoreOp.activate self false none s sig).trace) ∧
    ((∀ p ∈ pre, p.2 = .SUCCESS) →
      CoreOp.activate_low_level_streams (pre ++ (nm, .STREAM_ABORTED_BY_USER) :: rest) outs =
        .STREAM_ABORTED_BY_USER) := by
  have hgen : ∀ s : HailoStatus, s ≠ .SUCCESS →
      (CoreOp.activate self false none s sig).status = s ∧
      (CoreOp.activate self false none s sig).holder = none ∧
      .hwDeactivate ∈ (CoreOp.activate self false none s sig).trace := by
    intro s hs
    simp [CoreOp.activate, hs]
  refine ⟨hgen .STREAM_ABORTED_BY_USER (by decide), hgen, ?_⟩
  intro hpre
  simp [CoreOp.activate_low_level_streams,
    activate_streams_loop_aborted pre nm rest hpre]

/-- Witness for C4: hardware activation aborted by the user on concrete
inputs returns STREAM_ABORTED_BY_USER, both in `activate` and in
`activate_low_level_streams` with one succeeding stream before the aborted
one. -/
theorem aborted_by_user_passthrough_witness :
    (CoreOp.activate 1 false none .STREAM_ABORTED_BY_USER .SUCCESS).status =
      .STREAM_ABORTED_BY_USER ∧
    CoreOp.activate_low_level_streams
      [("a", .SUCCESS), ("b", .STREAM_ABORTED_BY_USER)] [] = .STREAM_ABORTED_BY_USER :=
  ⟨(aborted_by_user_passthrough 1 .SUCCESS [("a", .SUCCESS)] [] [] "b").1.1,
   (aborted_by_user_passthrough 1 .SUCCESS [("a", .SUCCESS)] [] [] "b").2.2 (by decide)⟩

/-- Modelled from the spec: the status with which `ActiveCoreOpHolder::get`
fails when no core-op currently holds the Activated slot
(`active_core_op_holder.hpp` is not under `src/`, only its caller is); the
spec folds every non-holder caller of `deactivate`, including this case, into
INTERNAL_FAILURE. -/
def ACTIVE_CORE_OP_HOLDER_EMPTY_STATUS : HailoStatus := .INTERNAL_FAILURE

/-- Result of one `CoreOp::deactivate` call: the returned status, the
Activated slot holder afterwards, whether the activation event was reset, and
whether best-effort hardware deactivation (`deactivate_impl`) ran. -/
structure DeactivateOutcome where
  status : HailoStatus
  holder : Option Nat
  eventWasReset : Bool
  ranDeactivateImpl : Bool
  deriving DecidableEq, Repr

namespace CoreOp

/-- Embedding of `CoreOp::deactivate`. `self` is the calling core-op's
identity, `isScheduled` the result of the virtual `is_scheduled()`, `holder`
the current `ActiveCoreOpHolder` content, and `implStatus` the result of the
virtual `deactivate_impl` (returned even when it is a failure, after
logging). -/
def deactivate (self : Nat) (isScheduled : Bool) (holder : Option Nat)
    (implStatus : HailoStatus) : DeactivateOutcome :=
  if isScheduled then
    { status := .INVALID_OPERATION, holder := holder,
      eventWasReset := false, ranDeactivateImpl := false }
  else
    match holder with
    | none =>
      { status := ACTIVE_CORE_OP_HOLDER_EMPTY_STATUS, holder := none,
        eventWasReset := false, ranDeactivateImpl := false }
    | some h =>
      if h = self then
        { status := implStatus, holder := none,
          eventWasReset := true, ranDeactivateImpl := true }
      else
        { status := .INTERNAL_FAILURE, holder := some h,
          eventWasReset := false, ranDeactivateImpl := false }

end CoreOp

/-- C6 counterexample: with the core-op scheduler active, a call by core-op 1
while core-op 2 holds the Activated slot fails with INVALID_OPERATION, not
with INTERNAL_FAILURE, although the caller is not the slot holder. -/
theorem deactivate_scheduler_counterexample :
    (CoreOp.deactivate 1 true (some 2) .SUCCESS).status = .INVALID_OPERATION ∧
    (some 2 : Option Nat) ≠ some 1 ∧
    HailoStatus.INVALID_OPERATION ≠ .INTERNAL_FAILURE := by decide

/-- C6 (amended): when the core-op scheduler is active, `deactivate` fails
with INVALID_OPERATION regardless of the slot holder; otherwise it fails with
INTERNAL_FAILURE unless the caller is the process-wide holder of the
Activated slot (including the case where no core-op is active); in all cases
only the slot holder can deactivate successfully. -/
theorem deactivate_ownership_amended (self : Nat) (sched : Bool) (holder : Option Nat)
    (impl : HailoStatus) :
    (sched = true → (CoreOp.deactivate self sched holder impl).status = .INVALID_OPERATION) ∧
    (sched = false → holder ≠ some self →
      (CoreOp.deactivate self sched holder impl).status = .INTERNAL_FAILURE) ∧
    ((CoreOp.deactivate self sched holder impl).status = .SUCCESS →
      sched = false ∧ holder = some self ∧ impl = .SUCCESS) := by
  refine ⟨?_, ?_, ?_⟩
  · intro hs
    subst hs
    rfl
  · intro hs hneq
    subst hs
    cases holder with
    | none => rfl
    | some h =>
      have hh : ¬ (h = self) := fun he => hneq (by rw [he])
      simp [CoreOp.deactivate, hh]
  · intro hsucc
    cases sched with
    | true => exact absurd hsucc (by simp [CoreOp.deactivate])
    | false =>
      cases holder with
      | none =>
        exact absurd hsucc
          (by simp [CoreOp.deactivate, ACTIVE_CORE_OP_HOLDER_EMPTY_STATUS])
      | some h =>
        by_cases hh : h = self
        · subst hh
          refine ⟨rfl, rfl, ?_⟩
          simpa [CoreOp.deactivate] using hsucc
        · exact absurd hsucc (by simp [CoreOp.deactivate, hh])

/-- Witness for C6: concretely, core-op 1 deactivating while core-op 2 holds
the slot (scheduler inactive) fails with INTERNAL_FAILURE. -/
theorem deactivate_ownership_amended_witness :
    (CoreOp.deactivate 1 false (some 2) .SUCCESS).status = .INTERNAL_FAILURE :=
  (deactivate_ownership_amended 1 false (some 2) .SUCCESS).2.1 rfl (by decide)

instance {e : Type} {a : Type} [DecidableEq e] [DecidableEq a] :
    DecidableEq (Except e a) := fun e1 e2 =>
  match e1, e2 with
  | .error x, .error y =>
    if h : x = y then isTrue (by rw [h]) else isFalse (fun hc => h (by injection hc))
  | .ok x, .ok y =>
    if h : x = y then isTrue (by rw [h]) else isFalse (fun hc => h (by injection hc))
  | .error _, .ok _ => isFalse (fun hc => nomatch hc)
  | .ok _, .error _ => isFalse (fun hc => nomatch hc)

/-- Modelled from the spec: a per-network hardware latency meter (the
`LatencyMeter` class is not under `src/`). `result` is what its
`get_latency` reports: an available latency sample in nanoseconds, the
NOT_AVAILABLE status when no sample was produced yet, or a hard failure. -/
structure LatencyMeter where
  result : Except HailoStatus Nat
  deriving DecidableEq, Repr

/-- Modelled from the spec: `LatencyMeter::get_latency(clear)` returns the
accumulated latency, and in clear-on-read mode resets the meter after a
successful sampling, leaving it with no available data. -/
def LatencyMeter.get_latency (m : LatencyMeter) (clear : Bool) :
    Except HailoStatus Nat × LatencyMeter :=
  match m.result with
  | .ok v => (.ok v, if clear then ⟨.error .NOT_AVAILABLE⟩ else m)
  | .error e => (.error e, m)

/-- A meter is normal when it either reports a sample or has no data yet
(NOT_AVAILABLE); i.e. reading it does not hard-fail. -/
def LatencyMeter.normal (m : LatencyMeter) : Bool :=
  match m.result with
  | .ok _ => true
  | .error .NOT_AVAILABLE => true
  | .error _ => false

namespace CoreOp

/-- The aggregation loop of `CoreOp::get_latency_measurement` over the
latency-meter map: a NOT_AVAILABLE meter is skipped (`continue`), any other
failure returns immediately through `CHECK_EXPECTED`, and a reported sample
is collected (the source keeps a running sum and count; the sample list in
order carries the same data). Also returns the updated meter map: meters
already read stay cleared even when a later meter hard-fails. -/
def collect_latencies (clear : Bool) :
    List (String × LatencyMeter) →
      Except HailoStatus (List Nat) × List (String × LatencyMeter)
  | [] => (.ok [], [])
  | (n, m) :: rest =>
    match m.get_latency clear with
    | (.error .NOT_AVAILABLE, m1) =>
      let res := collect_latencies clear rest
      (res.1, (n, m1) :: res.2)
    | (.error e, m1) => (.error e, (n, m1) :: rest)
    | (.ok v, m1) =>
      let res := collect_latencies clear rest
      ((match res.1 with
        | .ok vs => .ok (v :: vs)
        | .error e => .error e), (n, m1) :: res.2)

/-- The named-network branch of `get_latency_measurement`: find the meter for
`network_name` in the map (NOT_FOUND when absent, as the `contains` check
reports) and read it, passing NOT_AVAILABLE and any other failure through. -/
def read_named_meter (clear : Bool) (network_name : String) :
    List (String × LatencyMeter) →
      Except HailoStatus Nat × List (String × LatencyMeter)
  | [] => (.error .NOT_FOUND, [])
  | (n, m) :: rest =>
    if n = network_name then
      let r := m.get_latency clear
      (r.1, (n, r.2) :: rest)
    else
      let res := read_named_meter clear network_name rest
      (res.1, (n, m) :: res.2)

/-- Embedding of `CoreOp::get_latency_measurement`. `clear` is the
clear-after-get latency flag the source derives from
`m_config_params.latency`, `inputStreamCount` the size of the input-stream
map. Returns the measurement result (the average hardware latency in
nanoseconds, with the integer division the source's chrono division
performs) together with the meter map after the call. -/
def get_latency_measurement (clear : Bool) (inputStreamCount : Nat)
    (latency_meters : List (String × LatencyMeter)) (network_name : String) :
    Except HailoStatus Nat × List (String × LatencyMeter) :=
  if network_name = "" then
    if inputStreamCount ≠ 1 then (.error .NOT_AVAILABLE, latency_meters)
    else
      let res := collect_latencies clear latency_meters
      match res.1 with
      | .error e => (.error e, res.2)
      | .ok vs =>
        if vs.length = 0 then (.error .NOT_AVAILABLE, res.2)
        else (.ok (vs.sum / vs.length), res.2)
  else
    read_named_meter clear network_name latency_meters

end CoreOp

/-- The samples of the meters that report data, in map order. -/
def reportedLatencies (meters : List (String × LatencyMeter)) : List Nat :=
  meters.filterMap (fun p => match p.2.result with | .ok v => some v | .error _ => none)

theorem collect_latencies_normal (clear : Bool) (meters : List (String × LatencyMeter))
    (h : ∀ p ∈ meters, p.2.normal = true) :
    (CoreOp.collect_latencies clear meters).1 = .ok (reportedLatencies meters) := by
  induction meters with
  | nil => rfl
  | cons hd tl ih =>
    have hhd := h hd (List.mem_cons_self hd tl)
    have htl : ∀ p ∈ tl, p.2.normal = true :=
      fun p hp => h p (List.mem_cons_of_mem hd hp)
    obtain ⟨n, m⟩ := hd
    cases hres : m.result with
    | error e =>
      have he : e = .NOT_AVAILABLE := by
        by_contra hne
        unfold LatencyMeter.normal at hhd
        rw [hres] at hhd
        cases e <;> simp_all
      subst he
      simp [CoreOp.collect_latencies, LatencyMeter.get_latency, hres,
        reportedLatencies, ih htl]
    | ok v =>
      simp [CoreOp.collect_latencies, LatencyMeter.get_latency, hres,
        reportedLatencies, ih htl]

theorem read_named_meter_absent (clear : Bool) (name : String)
    (meters : List (String × LatencyMeter))
    (h : ∀ p ∈ meters, p.1 ≠ name) :
    (CoreOp.read_named_meter clear name meters).1 = .error .NOT_FOUND ∧
    (CoreOp.read_named_meter clear name meters).2 = meters := by
  induction meters with
  | nil => exact ⟨rfl, rfl⟩
  | cons hd tl ih =>
    have hhd : hd.1 ≠ name := h hd (List.mem_cons_self hd tl)
    have htl : ∀ p ∈ tl, p.1 ≠ name :=
      fun p hp => h p (List.mem_cons_of_mem hd hp)
    obtain ⟨n, m⟩ := hd
    simp [CoreOp.read_named_meter, hhd, (ih htl).1, (ih htl).2]

/-- C5: latency measurement results. With an empty network name (and the one
input stream the aggregation path requires), when no meter hard-fails, the
returned average is the sum of the samples of the meters that reported data
divided by their count, and the call fails with NOT_AVAILABLE when zero
meters report data; with a non-empty network name absent from the meter map,
the call fails with NOT_FOUND. -/
theorem latency_measurement_results
    (clear : Bool) (meters : List (String × LatencyMeter)) (name : String)
    (hnormal : ∀ p ∈ meters, p.2.normal = true) :
    (reportedLatencies meters = [] →
      (CoreOp.get_latency_measurement clear 1 meters "").1 = .error .NOT_AVAILABLE) ∧
    (reportedLatencies meters ≠ [] →
      (CoreOp.get_latency_measurement clear 1 meters "").1 =
        .ok ((reportedLatencies meters).sum / (reportedLatencies meters).length)) ∧
    (name ≠ "" → (∀ p ∈ meters, p.1 ≠ name) →
      (CoreOp.get_latency_measurement clear 1 meters name).1 = .error .NOT_FOUND) := by
  have hcollect := collect_latencies_normal clear meters hnormal
  refine ⟨?_, ?_, ?_⟩
  · intro hemp
    simp [CoreOp.get_latency_measurement, hcollect, hemp]
  · intro hne
    have hlen : (reportedLatencies meters).length ≠ 0 := by
      intro h0
      exact hne (List.length_eq_zero.mp h0)
    simp [CoreOp.get_latency_measurement, hcollect, hlen]
  · intro hn habs
    have hread := read_named_meter_absent clear name meters habs
    simp [CoreOp.get_latency_measurement, hn, hread.1]

/-- Concrete meter map for the C5 witness: meters for networks n1 and n3
report 10 ns and 4 ns; the meter for n2 has no data. -/
def metersW : List (String × LatencyMeter) :=
  [("n1", ⟨.ok 10⟩), ("n2", ⟨.error .NOT_AVAILABLE⟩), ("n3", ⟨.ok 4⟩)]

/-- Witness for C5: on the concrete meter map the empty-name read averages
(10 + 4) / 2 = 7, and reading the absent network name fails with
NOT_FOUND. -/
theorem latency_measurement_results_witness :
    (CoreOp.get_latency_measurement false 1 metersW "").1 = .ok 7 ∧
    (CoreOp.get_latency_measurement false 1 metersW "absent").1 = .error .NOT_FOUND := by
  have h := latency_measurement_results false metersW "absent" (by decide)
  refine ⟨?_, h.2.2 (by decide) (by decide)⟩
  have h2 := h.2.1 (by decide)
  rw [h2]
  decide

/-- C9: implicit single-input guard on latency aggregation. With an empty
network name and an input-stream count other than one,
`get_latency_measurement` returns NOT_AVAILABLE immediately and leaves every
latency meter untouched (in particular uncleared), so aggregation only ever
happens with exactly one input stream. -/
theorem latency_single_input_guard (clear : Bool) (count : Nat)
    (meters : List (String × LatencyMeter)) (h : count ≠ 1) :
    (CoreOp.get_latency_measurement clear count meters "").1 = .error .NOT_AVAILABLE ∧
    (CoreOp.get_latency_measurement clear count meters "").2 = meters := by
  constructor <;> simp [CoreOp.get_latency_measurement, h]

/-- Witness for C9: two input streams, clear-on-read mode, one meter with
data: the call returns NOT_AVAILABLE and the meter keeps its sample. -/
theorem latency_single_input_guard_witness :
    (CoreOp.get_latency_measurement true 2 [("n1", ⟨.ok 5⟩)] "").1 = .error .NOT_AVAILABLE ∧
    (CoreOp.get_latency_measurement true 2 [("n1", ⟨.ok 5⟩)] "").2 = [("n1", ⟨.ok 5⟩)] :=
  latency_single_input_guard true 2 [("n1", ⟨.ok 5⟩)] (by decide)

/-- Modelled from the spec: `MAX_ACTIVE_TRANSFERS_SCALE`, the fixed scale
factor of the decoding adapter's queue depth (defined in a stream header not
under `src/`); only its being a fixed constant matters to the claims. -/
def MAX_ACTIVE_TRANSFERS_SCALE : Nat := 2

/-- Layer format orders: the detection-list (NMS) order against all other
orders (`hailo_format_order_t`). -/
inductive FormatOrder where
  | HAILO_NMS
  | other (code : Nat)
  deriving DecidableEq, Repr

/-- The slice of `LayerInfo` read by output-stream construction. -/
structure LayerInfo where
  format_order : FormatOrder
  deriving DecidableEq, Repr

/-- Stream transport interfaces (`hailo_stream_interface_t`). -/
inductive StreamInterface where
  | PCIE
  | INTEGRATED
  | ETH
  | MIPI
  deriving DecidableEq, Repr

/-- The shape of a constructed output stream: a transport-specific base
stream, possibly wrapped by the NMS decoding adapter with its internal queue
depth. -/
inductive OutputStreamDesc where
  | vdma
  | eth
  | nmsWrapper (max_queue_size : Nat) (base : OutputStreamDesc)
  deriving DecidableEq, Repr

namespace CoreOp

/-- The transport dispatch of `create_output_stream_from_config_params`:
PCIE and INTEGRATED fall through to the vdma stream constructor, ETH to the
ethernet one, and any other interface hits the default case with
NOT_IMPLEMENTED. `baseStatus` abstracts the constructor's outcome. -/
def create_base_output_stream (iface : StreamInterface) (baseStatus : HailoStatus) :
    Except HailoStatus OutputStreamDesc :=
  match iface with
  | .PCIE | .INTEGRATED =>
    if baseStatus = .SUCCESS then .ok .vdma else .error baseStatus
  | .ETH =>
    if baseStatus = .SUCCESS then .ok .eth else .error baseStatus
  | .MIPI => .error .NOT_IMPLEMENTED

/-- Embedding of `CoreOp::create_output_stream_from_config_params`. The
metadata lookup `get_layer_info` is abstracted by its result `layerRes`, the
device capability check by `ifaceSupported`, and the constructor outcomes by
`baseStatus` and `nmsStatus`. When the layer's format order is the NMS order,
the base stream is wrapped in the decoding adapter whose queue depth is the
group's smallest configured batch size times the fixed scale factor. -/
def create_output_stream_from_config_params
    (config_params : ConfigureNetworkParams)
    (layerRes : Except HailoStatus LayerInfo) (ifaceSupported : Bool)
    (iface : StreamInterface) (baseStatus nmsStatus : HailoStatus) :
    Except HailoStatus OutputStreamDesc :=
  match layerRes with
  | .error e => .error e
  | .ok layer_info =>
    if ¬ ifaceSupported then .error .INVALID_OPERATION
    else
      match create_base_output_stream iface baseStatus with
      | .error e => .error e
      | .ok base_stream =>
        if layer_info.format_order = .HAILO_NMS then
          let batch_size := get_smallest_configured_batch_size config_params
          let max_queue_size := batch_size * MAX_ACTIVE_TRANSFERS_SCALE
          if nmsStatus = .SUCCESS then .ok (.nmsWrapper max_queue_size base_stream)
          else .error nmsStatus
        else .ok base_stream

end CoreOp

/-- The transport-specific base stream kind the interface dispatch builds on
success. -/
def baseKindOf (iface : StreamInterface) : OutputStreamDesc :=
  match iface with
  | .ETH => .eth
  | _ => .vdma

theorem create_base_kind (iface : StreamInterface) (b : HailoStatus) (d : OutputStreamDesc)
    (h : CoreOp.create_base_output_stream iface b = .ok d) :
    d = baseKindOf iface := by
  cases iface <;> by_cases hb : b = .SUCCESS <;>
    simp [CoreOp.create_base_output_stream, hb] at h <;>
    simp [baseKindOf, h]

/-- C8: detection-list stream wrapping. When output stream construction
succeeds and the layer's format order is the NMS order, the result is the
decoding adapter wrapping the transport-specific base stream, with queue
depth equal to the smallest configured batch size times
MAX_ACTIVE_TRANSFERS_SCALE; with any other format order the base stream is
returned unwrapped. -/
theorem nms_stream_wrapping
    (cfg : ConfigureNetworkParams) (layer : LayerInfo) (supported : Bool)
    (iface : StreamInterface) (baseStatus nmsStatus : HailoStatus)
    (s : OutputStreamDesc)
    (hok : CoreOp.create_output_stream_from_config_params cfg (.ok layer) supported iface
      baseStatus nmsStatus = .ok s) :
    (layer.format_order = .HAILO_NMS →
      s = .nmsWrapper
        (CoreOp.get_smallest_configured_batch_size cfg * MAX_ACTIVE_TRANSFERS_SCALE)
        (baseKindOf iface)) ∧
    (layer.format_order ≠ .HAILO_NMS → (s = .vdma ∨ s = .eth)) := by
  cases supported with
  | false => exact absurd hok (by simp [CoreOp.create_output_stream_from_config_params])
  | true =>
    rcases hbase : CoreOp.create_base_output_stream iface baseStatus with e | d
    · rw [show CoreOp.create_output_stream_from_config_params cfg (.ok layer) true iface
          baseStatus nmsStatus =
          match CoreOp.create_base_output_stream iface baseStatus with
          | .error e => .error e
          | .ok base_stream =>
            if layer.format_order = .HAILO_NMS then
              if nmsStatus = .SUCCESS then
                .ok (.nmsWrapper
                  (CoreOp.get_smallest_configured_batch_size cfg * MAX_ACTIVE_TRANSFERS_SCALE)
                  base_stream)
              else .error nmsStatus
            else .ok base_stream
          from rfl, hbase] at hok
      exact absurd hok (by simp)
    · rw [show CoreOp.create_output_stream_from_config_params cfg (.ok layer) true iface
          baseStatus nmsStatus =
          match CoreOp.create_base_output_stream iface baseStatus with
          | .error e => .error e
          | .ok base_stream =>
            if layer.format_order = .HAILO_NMS then
              if nmsStatus = .SUCCESS then
                .ok (.nmsWrapper
                  (CoreOp.get_smallest_configured_batch_size cfg * MAX_ACTIVE_TRANSFERS_SCALE)
                  base_stream)
              else .error nmsStatus
            else .ok base_stream
          from rfl, hbase] at hok
      have hd := create_base_kind iface baseStatus d hbase
      by_cases hf : layer.format_order = .HAILO_NMS
      · by_cases hn : nmsStatus = .SUCCESS
        · refine ⟨fun _ => ?_, fun hnot => absurd hf hnot⟩
          simp [hf, hn] at hok
          rw [← hok, hd]
        · simp [hf, hn] at hok
      · refine ⟨fun hyes => absurd hyes hf, fun _ => ?_⟩
        simp [hf] at hok
        rw [← hok, hd]
        cases iface <;> simp [baseKindOf]

/-- Witness for C8: the concrete configuration `A:4, B:AUTO, C:2` (smallest
batch 2), an NMS-order layer on the ethernet transport, all constructors
succeeding: the result is the decoding adapter around the ethernet stream
with queue depth 2 × MAX_ACTIVE_TRANSFERS_SCALE. -/
theorem nms_stream_wrapping_witness :
    OutputStreamDesc.nmsWrapper (2 * MAX_ACTIVE_TRANSFERS_SCALE) .eth =
      .nmsWrapper
        (CoreOp.get_smallest_configured_batch_size cfg_mixed * MAX_ACTIVE_TRANSFERS_SCALE)
        (baseKindOf .ETH) :=
  (nms_stream_wrapping cfg_mixed ⟨.HAILO_NMS⟩ true .ETH .SUCCESS .SUCCESS
    (.nmsWrapper (2 * MAX_ACTIVE_TRANSFERS_SCALE) .eth) (by decide)).1 rfl


/-- Result of a broker client proxy method that can report a status: the
remote-call method names it issues (in order) and its outcome. -/
structure ProxyResult (α : Type) where
  remote_calls : List String
  result : Except HailoStatus α
  deriving DecidableEq, Repr

/-- Result of a broker client proxy method whose signature has no status
channel: the remote-call method names it issues and its plain return value. -/
structure ProxyValue (α : Type) where
  remote_calls : List String
  value : α
  deriving DecidableEq, Repr

namespace ConfiguredNetworkGroupClient

/-- Embedding of `ConfiguredNetworkGroupClient::activate`: logs a warning and
returns INVALID_OPERATION without contacting the broker (the
`network_group_params` argument is ignored by the source). -/
def activate : ProxyResult Unit := ⟨[], .error .INVALID_OPERATION⟩

/-- Embedding of `ConfiguredNetworkGroupClient::wait_for_activation`: logs a
warning and returns INVALID_OPERATION without contacting the broker, for any
timeout. -/
def wait_for_activation (_timeout_ms : Nat) : ProxyResult Unit :=
  ⟨[], .error .INVALID_OPERATION⟩

/-- Embedding of `ConfiguredNetworkGroupClient::get_input_stream_by_name`:
logs an error and returns INVALID_OPERATION without contacting the broker. -/
def get_input_stream_by_name (_name : String) : ProxyResult Unit :=
  ⟨[], .error .INVALID_OPERATION⟩

/-- Embedding of `ConfiguredNetworkGroupClient::get_output_stream_by_name`:
logs an error and returns INVALID_OPERATION without contacting the broker. -/
def get_output_stream_by_name (_name : String) : ProxyResult Unit :=
  ⟨[], .error .INVALID_OPERATION⟩

/-- Embedding of
`ConfiguredNetworkGroupClient::get_input_streams_by_network`: logs an error
and returns INVALID_OPERATION without contacting the broker. -/
def get_input_streams_by_network (_network_name : String) : ProxyResult (List Unit) :=
  ⟨[], .error .INVALID_OPERATION⟩

/-- Embedding of
`ConfiguredNetworkGroupClient::get_output_streams_by_network`: logs an error
and returns INVALID_OPERATION without contacting the broker. -/
def get_output_streams_by_network (_network_name : String) : ProxyResult (List Unit) :=
  ⟨[], .error .INVALID_OPERATION⟩

/-- Embedding of `ConfiguredNetworkGroupClient::get_input_streams`: logs an
error and returns an empty stream vector (the signature has no status
channel), contacting no broker. -/
def get_input_streams : ProxyValue (List Unit) := ⟨[], []⟩

/-- Embedding of `ConfiguredNetworkGroupClient::get_output_streams`: logs an
error and returns an empty stream vector (the signature has no status
channel), contacting no broker. -/
def get_output_streams : ProxyValue (List Unit) := ⟨[], []⟩

/-- Embedding of `ConfiguredNetworkGroupClient::is_scheduled`: `reply` is the
(status, value) pair of the broker's answer to the issued remote call; a
non-success status is logged and swallowed, returning false. -/
def is_scheduled (reply : HailoStatus × Bool) : Bool :=
  if reply.1 ≠ .SUCCESS then false else reply.2

/-- Embedding of `ConfiguredNetworkGroupClient::is_multi_context`: a
non-success reply status is logged and swallowed, returning false. -/
def is_multi_context (reply : HailoStatus × Bool) : Bool :=
  if reply.1 ≠ .SUCCESS then false else reply.2

/-- Embedding of `ConfiguredNetworkGroupClient::get_config_params`: a
non-success reply status is logged and swallowed, returning a
default-constructed `ConfigureNetworkParams`. -/
def get_config_params (reply : HailoStatus × ConfigureNetworkParams) :
    ConfigureNetworkParams :=
  if reply.1 ≠ .SUCCESS then ⟨[]⟩ else reply.2

end ConfiguredNetworkGroupClient

/-- C7 counterexample: `get_input_streams` and `get_output_streams` on the
proxy issue no remote call but return the empty stream vector — a plain
value, not an explicit invalid-operation failure: their signatures carry no
status at all, so they cannot fail with INVALID_OPERATION as the claim
states. -/
theorem proxy_get_streams_empty_counterexample :
    ConfiguredNetworkGroupClient.get_input_streams = ⟨[], []⟩ ∧
    ConfiguredNetworkGroupClient.get_output_streams = ⟨[], []⟩ :=
  ⟨rfl, rfl⟩

/-- C7 (amended): on the broker client proxy, every status-capable
non-routable operation — activate, wait_for_activation,
get_input_stream_by_name, get_output_stream_by_name,
get_input_streams_by_network, get_output_streams_by_network — fails
immediately with INVALID_OPERATION and issues no remote call; the two
operations whose signatures return plain stream vectors, get_input_streams
and get_output_streams, also issue no remote call but return an empty vector
instead of a status. -/
theorem proxy_non_routable_amended (name network_name : String) (timeout_ms : Nat) :
    ConfiguredNetworkGroupClient.activate.result = .error .INVALID_OPERATION ∧
    ConfiguredNetworkGroupClient.activate.remote_calls = [] ∧
    (ConfiguredNetworkGroupClient.wait_for_activation timeout_ms).result =
      .error .INVALID_OPERATION ∧
    (ConfiguredNetworkGroupClient.wait_for_activation timeout_ms).remote_calls = [] ∧
    (ConfiguredNetworkGroupClient.get_input_stream_by_name name).result =
      .error .INVALID_OPERATION ∧
    (ConfiguredNetworkGroupClient.get_input_stream_by_name name).remote_calls = [] ∧
    (ConfiguredNetworkGroupClient.get_output_stream_by_name name).result =
      .error .INVALID_OPERATION ∧
    (ConfiguredNetworkGroupClient.get_output_stream_by_name name).remote_calls = [] ∧
    (ConfiguredNetworkGroupClient.get_input_streams_by_network network_name).result =
      .error .INVALID_OPERATION ∧
    (ConfiguredNetworkGroupClient.get_input_streams_by_network network_name).remote_calls = [] ∧
    (ConfiguredNetworkGroupClient.get_output_streams_by_network network_name).result =
      .error .INVALID_OPERATION ∧
    (ConfiguredNetworkGroupClient.get_output_streams_by_network network_name).remote_calls = [] ∧
    ConfiguredNetworkGroupClient.get_input_streams.remote_calls = [] ∧
    ConfiguredNetworkGroupClient.get_input_streams.value = [] ∧
    ConfiguredNetworkGroupClient.get_output_streams.remote_calls = [] ∧
    ConfiguredNetworkGroupClient.get_output_streams.value = [] :=
  ⟨rfl, rfl, rfl, rfl, rfl, rfl, rfl, rfl, rfl, rfl, rfl, rfl, rfl, rfl, rfl, rfl⟩

/-- C10: implicit error swallowing in proxy getters. For any non-success
reply status, `is_scheduled` and `is_multi_context` return false and
`get_config_params` returns a default-constructed `ConfigureNetworkParams`,
each indistinguishable from a genuine false / default-valued successful
reply. -/
theorem proxy_error_swallowing (e : HailoStatus) (v : Bool)
    (p : ConfigureNetworkParams) (he : e ≠ .SUCCESS) :
    ConfiguredNetworkGroupClient.is_scheduled (e, v) = false ∧
    ConfiguredNetworkGroupClient.is_multi_context (e, v) = false ∧
    ConfiguredNetworkGroupClient.get_config_params (e, p) = ⟨[]⟩ ∧
    ConfiguredNetworkGroupClient.is_scheduled (e, v) =
      ConfiguredNetworkGroupClient.is_scheduled (.SUCCESS, false) ∧
    ConfiguredNetworkGroupClient.is_multi_context (e, v) =
      ConfiguredNetworkGroupClient.is_multi_context (.SUCCESS, false) ∧
    ConfiguredNetworkGroupClient.get_config_params (e, p) =
      ConfiguredNetworkGroupClient.get_config_params (.SUCCESS, ⟨[]⟩) := by
  simp [ConfiguredNetworkGroupClient.is_scheduled,
    ConfiguredNetworkGroupClient.is_multi_context,
    ConfiguredNetworkGroupClient.get_config_params, he]

/-- Witness for C10: a concrete INTERNAL_FAILURE reply with value true (resp.
a non-empty parameter map) yields false (resp. the default parameters),
exactly as a successful false / default reply does. -/
theorem proxy_error_swallowing_witness :
    ConfiguredNetworkGroupClient.is_scheduled (.INTERNAL_FAILURE, true) = false ∧
    ConfiguredNetworkGroupClient.is_multi_context (.INTERNAL_FAILURE, true) = false ∧
    ConfiguredNetworkGroupClient.get_config_params
      (.INTERNAL_FAILURE, ⟨[("A", ⟨4⟩)]⟩) = ⟨[]⟩ ∧
    ConfiguredNetworkGroupClient.is_scheduled (.INTERNAL_FAILURE, true) =
      ConfiguredNetworkGroupClient.is_scheduled (.SUCCESS, false) ∧
    ConfiguredNetworkGroupClient.is_multi_context (.INTERNAL_FAILURE, true) =
      ConfiguredNetworkGroupClient.is_multi_context (.SUCCESS, false) ∧
    ConfiguredNetworkGroupClient.get_config_params
      (.INTERNAL_FAILURE, ⟨[("A", ⟨4⟩)]⟩) =
      ConfiguredNetworkGroupClient.get_config_params (.SUCCESS, ⟨[]⟩) :=
  proxy_error_swallowing .INTERNAL_FAILURE true ⟨[("A", ⟨4⟩)]⟩ (by decide)

end Hailort
